import Mathlib

/-!
Shallow embedding of the task store in `todo_db.py` (class `TodoDB`).

The SQLite table `todos` is modelled as an in-memory list of rows together
with the next AUTOINCREMENT id.  Each public operation of `TodoDB`
(`add_task`, `list_tasks`, `complete_task`, `delete_task`) becomes a pure
Lean function on that state; `datetime('now')` becomes an explicit `now`
argument.  Python exceptions (`ValueError`) become `Except String`
results carrying the exact message the source raises.
-/

namespace TodoStore

/-- A row of the `todos` table (schema in `TodoDB.setup`):
`id INTEGER PRIMARY KEY AUTOINCREMENT, task TEXT, status TEXT,
created_at TEXT, updated_at TEXT` (nullable). -/
structure Row where
  id : Nat
  task : String
  status : String
  created_at : String
  updated_at : Option String
  deriving DecidableEq, Repr

/-- The `Task` dataclass returned by `TodoDB.list_tasks`
(fields `id`, `task`, `status`, `created_at` — note: no `updated_at`). -/
structure Task where
  id : Nat
  task : String
  status : String
  created_at : String
  deriving DecidableEq, Repr

/-- Projection used by `list_tasks` when building `Task` objects from rows. -/
def toTask (r : Row) : Task := ⟨r.id, r.task, r.status, r.created_at⟩

/-- State of the database file: current rows plus the next AUTOINCREMENT id. -/
structure DBState where
  rows : List Row
  nextId : Nat
  deriving DecidableEq, Repr

/-- A freshly `setup()` database: empty table, ids start at 1. -/
def DBState.init : DBState := ⟨[], 1⟩

/-- `STATUS_PENDING` in the source. -/
def STATUS_PENDING : String := "Pending"

/-- `STATUS_COMPLETED` in the source. -/
def STATUS_COMPLETED : String := "Completed"

/-- Characters stripped by Python `str.strip()`: CPython's Unicode whitespace
set (`Py_UNICODE_ISSPACE`): tab through carriage return (0x09-0x0D), the
information separators 0x1C-0x1F, space, NEL (0x85), no-break space (0xA0),
Ogham space mark (0x1680), the typographic spaces 0x2000-0x200A, line and
paragraph separators (0x2028, 0x2029), narrow no-break space (0x202F),
medium mathematical space (0x205F) and ideographic space (0x3000). -/
def isPyWhitespace (c : Char) : Bool :=
  (0x09 ≤ c.toNat && c.toNat ≤ 0x0D) || c = ' ' ||
  (0x1C ≤ c.toNat && c.toNat ≤ 0x1F) ||
  c.toNat = 0x85 || c.toNat = 0xA0 || c.toNat = 0x1680 ||
  (0x2000 ≤ c.toNat && c.toNat ≤ 0x200A) ||
  c.toNat = 0x2028 || c.toNat = 0x2029 || c.toNat = 0x202F ||
  c.toNat = 0x205F || c.toNat = 0x3000

/-- Python `str.strip()`: remove leading and trailing whitespace. -/
def pyStrip (s : String) : String :=
  ⟨((s.data.dropWhile isPyWhitespace).reverse.dropWhile isPyWhitespace).reverse⟩

/-- Python truthiness of an `Optional[str]` argument: `None` and `""` are falsy. -/
def truthyStr : Option String → Bool
  | none => false
  | some s => s != ""

/-- Python truthiness of an `Optional[int]` argument: `None` and `0` are falsy. -/
def truthyInt : Option Int → Bool
  | none => false
  | some n => n != 0

/-- ASCII lower-casing, as used by SQLite `LIKE` / `NOCASE` (ASCII-only folding). -/
def lowerAscii (c : Char) : Char :=
  if 'A' ≤ c ∧ c ≤ 'Z' then Char.ofNat (c.toNat + 32) else c

/-- SQLite `LIKE` pattern matching (case-insensitive for ASCII):
`%` matches any sequence of characters (equivalently, the rest of the pattern
matches some suffix of the string), `_` matches any single character, and
every other pattern character matches itself up to ASCII case. -/
def likeMatch : List Char → List Char → Bool
  | [], s => s.isEmpty
  | pc :: ps, s =>
    if pc = '%' then s.tails.any (fun t => likeMatch ps t)
    else
      match s with
      | [] => false
      | c :: s2 =>
        if pc = '_' then likeMatch ps s2
        else (lowerAscii pc == lowerAscii c) && likeMatch ps s2

/-- The pattern `f"%{query}%"` built by `list_tasks`. -/
def queryPattern (q : String) : List Char := '%' :: (q.data ++ ['%'])

/-- `TodoDB.add_task`: validate (before any I/O), strip, insert a Pending row,
return the assigned primary key. -/
def addTask (st : DBState) (content : String) (now : String) :
    Except String (Nat × DBState) :=
  if content = "" ∨ pyStrip content = "" then
    Except.error "Task content cannot be empty."
  else
    let c := pyStrip content
    let newId := st.nextId
    Except.ok (newId, ⟨st.rows ++ [⟨newId, c, STATUS_PENDING, now, none⟩], newId + 1⟩)

/-- The membership test `status in (STATUS_PENDING, STATUS_COMPLETED)`. -/
def statusFilterValid (s : String) : Bool :=
  s == STATUS_PENDING || s == STATUS_COMPLETED

/-- The `WHERE` clauses of `list_tasks`: optional `status = ?` filter and
optional `task LIKE '%q%' COLLATE NOCASE` filter, combined by `AND`. -/
def filteredRows (st : DBState) (status query : Option String) : List Row :=
  let afterStatus :=
    if truthyStr status then st.rows.filter (fun r => r.status == status.getD "")
    else st.rows
  if truthyStr query then
    afterStatus.filter (fun r => likeMatch (queryPattern (query.getD "")) r.task.data)
  else afterStatus

/-- `ORDER BY id DESC`. -/
def idGe (a b : Row) : Prop := b.id ≤ a.id

instance : DecidableRel idGe := fun a b => Nat.decLe b.id a.id

instance : IsTotal Row idGe := ⟨fun a b => Nat.le_total b.id a.id⟩

instance : IsTrans Row idGe := ⟨fun _ _ _ hab hbc => Nat.le_trans hbc hab⟩

/-- Sorting performed by `ORDER BY id DESC`. -/
def sortByIdDesc (rows : List Row) : List Row := List.insertionSort idGe rows

/-- The `LIMIT ?` clause: only emitted when `limit` is truthy; SQLite applies
no bound when the limit value is negative. -/
def applyLimit (limit : Option Int) (l : List Row) : List Row :=
  if truthyInt limit then
    if 0 ≤ limit.getD 0 then l.take (limit.getD 0).toNat else l
  else l

/-- `TodoDB.list_tasks`: validate the status filter (before touching the
table), apply the `WHERE` filters, `ORDER BY id DESC`, `LIMIT`, and project
rows to `Task` values. -/
def listTasks (st : DBState) (limit : Option Int) (status query : Option String) :
    Except String (List Task) :=
  if truthyStr status && !statusFilterValid (status.getD "") then
    Except.error ("Invalid status filter: " ++ status.getD "")
  else
    Except.ok ((applyLimit limit (sortByIdDesc (filteredRows st status query))).map toTask)

/-- The column list of the `SELECT` in `list_tasks`. -/
def listSelectColumns : List String := ["id", "task", "status", "created_at"]

/-- The literal `SELECT` statement text in `list_tasks` (before clauses). -/
def listSelectSql : String := "SELECT id, task, status, created_at FROM todos"

/-- The row update of `complete_task`:
`SET status = 'Completed', updated_at = datetime('now')`
applied to rows matching `id = ? AND status != 'Completed'`. -/
def completeUpd (taskId : Nat) (now : String) (r : Row) : Row :=
  if r.id == taskId && r.status != STATUS_COMPLETED then
    { r with status := STATUS_COMPLETED, updated_at := some now }
  else r

/-- `TodoDB.complete_task`: one `UPDATE ... WHERE id = ? AND status != 'Completed'`;
returns `rowcount > 0`. -/
def completeTask (st : DBState) (taskId : Nat) (now : String) : Bool × DBState :=
  (decide (0 < st.rows.countP (fun r => r.id == taskId && r.status != STATUS_COMPLETED)),
   { st with rows := st.rows.map (completeUpd taskId now) })

/-- `TodoDB.delete_task`: `DELETE FROM todos WHERE id = ?`; returns `rowcount > 0`. -/
def deleteTask (st : DBState) (taskId : Nat) : Bool × DBState :=
  (decide (0 < st.rows.countP (fun r => r.id == taskId)),
   { st with rows := st.rows.filter (fun r => r.id != taskId) })

/-- Invariants guaranteed by the schema and the operations: statuses satisfy the
`CHECK (status IN ('Pending','Completed'))` constraint, ids are below the next
AUTOINCREMENT value, and ids are pairwise distinct (PRIMARY KEY). -/
def WF (st : DBState) : Prop :=
  (∀ r ∈ st.rows, r.status = STATUS_PENDING ∨ r.status = STATUS_COMPLETED)
  ∧ (∀ r ∈ st.rows, r.id < st.nextId)
  ∧ st.rows.Pairwise (fun a b => a.id ≠ b.id)

instance (st : DBState) : Decidable (WF st) := by
  unfold WF; infer_instance

/-- Case-insensitive (ASCII) equality of a pattern-free character list with a
string's first characters; the spec-side notion backing "substring match". -/
def isPrefixOfCI : List Char → List Char → Bool
  | [], _ => true
  | _ :: _, [] => false
  | a :: as, b :: bs => (lowerAscii a == lowerAscii b) && isPrefixOfCI as bs

/-- Modelled from the spec's words: case-insensitive substring containment
("matches if the trimmed stored content contains the query substring in any
case combination").  Used to compare the source's `LIKE`-based filter against
the spec's description. -/
def isSubCI : List Char → List Char → Bool
  | q, [] => isPrefixOfCI q []
  | q, c :: s2 => isPrefixOfCI q (c :: s2) || isSubCI q s2

/-- Concrete one-row database used to instantiate universally quantified
theorems: a single fresh Pending task. -/
def exSt1 : DBState := ⟨[⟨1, "A", "Pending", "t0", none⟩], 2⟩

/-- Concrete three-row database: tasks "A", "B", "C" added in that order. -/
def exSt3 : DBState :=
  ⟨[⟨1, "A", "Pending", "t1", none⟩, ⟨2, "B", "Pending", "t2", none⟩,
    ⟨3, "C", "Pending", "t3", none⟩], 4⟩

/-- Concrete database for the query-filter examples of the spec. -/
def exStBuy : DBState :=
  ⟨[⟨1, "Buy milk", "Pending", "t1", none⟩,
    ⟨2, "I will buy bread", "Pending", "t2", none⟩,
    ⟨3, "sell bread", "Pending", "t3", none⟩], 4⟩

/-- Concrete database holding one task "abc", used for the `LIKE`-wildcard
counterexample. -/
def exStAbc : DBState := ⟨[⟨1, "abc", "Pending", "t0", none⟩], 2⟩

/-! ### Helper lemmas -/

lemma mem_sortByIdDesc {r : Row} {l : List Row} : r ∈ sortByIdDesc l ↔ r ∈ l :=
  (List.perm_insertionSort idGe l).mem_iff

lemma sortByIdDesc_sorted (l : List Row) : (sortByIdDesc l).Pairwise idGe :=
  List.sorted_insertionSort idGe l

lemma sortByIdDesc_pairwise_ne {l : List Row}
    (h : l.Pairwise (fun a b => a.id ≠ b.id)) :
    (sortByIdDesc l).Pairwise (fun a b => a.id ≠ b.id) :=
  ((List.perm_insertionSort idGe l).pairwise_iff (fun h2 => Ne.symm h2)).mpr h

lemma pairwise_idlt_of_sorted_ne {l : List Row}
    (hs : l.Pairwise idGe) (hne : l.Pairwise (fun a b => a.id ≠ b.id)) :
    l.Pairwise (fun a b => b.id < a.id) := by
  induction l with
  | nil => exact List.Pairwise.nil
  | cons a l ih =>
    rcases List.pairwise_cons.mp hs with ⟨ha, hs2⟩
    rcases List.pairwise_cons.mp hne with ⟨ha2, hne2⟩
    exact List.pairwise_cons.mpr
      ⟨fun b hb => Nat.lt_of_le_of_ne (ha b hb) (fun he => ha2 b hb he.symm),
       ih hs2 hne2⟩

lemma filteredRows_sublist (st : DBState) (status query : Option String) :
    List.Sublist (filteredRows st status query) st.rows := by
  unfold filteredRows
  split
  · split
    · exact (List.filter_sublist _).trans (List.filter_sublist _)
    · exact List.filter_sublist _
  · split
    · exact List.filter_sublist _
    · exact List.Sublist.refl _

lemma applyLimit_sublist (limit : Option Int) (l : List Row) :
    List.Sublist (applyLimit limit l) l := by
  unfold applyLimit
  split
  · split
    · exact List.take_sublist _ _
    · exact List.Sublist.refl _
  · exact List.Sublist.refl _

lemma listTasks_of_falsy_status (st : DBState) (limit : Option Int)
    (status query : Option String) (h : truthyStr status = false) :
    listTasks st limit status query =
      Except.ok ((applyLimit limit (sortByIdDesc (filteredRows st status query))).map toTask) := by
  unfold listTasks
  simp [h]

lemma nil_mem_tails (s : List Char) : [] ∈ s.tails := by
  induction s with
  | nil => simp
  | cons c s ih => simp [List.tails_cons, ih]

lemma likeMatch_pct_nilpat (s : List Char) : likeMatch ['%'] s = true := by
  simp only [likeMatch, eq_self_iff_true, if_true, List.any_eq_true]
  exact ⟨[], nil_mem_tails s, rfl⟩

lemma likeMatch_plainPct (q : List Char) (hq : ∀ c ∈ q, c ≠ '%' ∧ c ≠ '_') :
    ∀ s, likeMatch (q ++ ['%']) s = isPrefixOfCI q s := by
  induction q with
  | nil => intro s; simp [likeMatch_pct_nilpat, isPrefixOfCI]
  | cons p q ih =>
    intro s
    obtain ⟨hp1, hp2⟩ := hq p (List.mem_cons_self p q)
    have ih2 := ih (fun c hc => hq c (List.mem_cons_of_mem p hc))
    cases s with
    | nil =>
      rw [List.cons_append]
      simp only [likeMatch, if_neg hp1]
      simp [isPrefixOfCI]
    | cons c s2 =>
      rw [List.cons_append]
      simp only [likeMatch, if_neg hp1, if_neg hp2]
      simp [isPrefixOfCI, ih2 s2]

lemma isSubCI_eq_any (q : List Char) :
    ∀ s, isSubCI q s = s.tails.any (fun t => isPrefixOfCI q t) := by
  intro s
  induction s with
  | nil => simp [isSubCI]
  | cons c s2 ih => simp [isSubCI, List.tails_cons, ih]

lemma likeMatch_queryPattern (q : String) (hq : ∀ c ∈ q.data, c ≠ '%' ∧ c ≠ '_')
    (s : List Char) : likeMatch (queryPattern q) s = isSubCI q.data s := by
  rw [queryPattern]
  simp only [likeMatch, eq_self_iff_true, if_true]
  have he : (fun t => likeMatch (q.data ++ ['%']) t) = fun t => isPrefixOfCI q.data t :=
    funext (likeMatch_plainPct q.data hq)
  rw [he, ← isSubCI_eq_any]

lemma completeTask_fst_iff (st : DBState) (i : Nat) (now : String) :
    (completeTask st i now).1 = true ↔
      ∃ r ∈ st.rows, r.id = i ∧ r.status ≠ STATUS_COMPLETED := by
  simp [completeTask, List.countP_pos_iff]

lemma completeTask_rows (st : DBState) (i : Nat) (now : String) :
    (completeTask st i now).2.rows = st.rows.map (completeUpd i now) := rfl

lemma completeTask_fst_eq (st : DBState) (i : Nat) (now : String) :
    (completeTask st i now).1 =
      decide (0 < st.rows.countP (fun r => r.id == i && r.status != STATUS_COMPLETED)) := rfl

lemma completeTask_twice (st : DBState) (i : Nat) (now now2 : String) :
    (completeTask (completeTask st i now).2 i now2).1 = false := by
  have h : ((completeTask st i now).2.rows.countP
      (fun r => r.id == i && r.status != STATUS_COMPLETED)) = 0 := by
    rw [completeTask_rows, List.countP_eq_zero]
    intro r2 hr2
    rcases List.mem_map.mp hr2 with ⟨r, _, rfl⟩
    unfold completeUpd
    by_cases hc : (r.id == i && r.status != STATUS_COMPLETED) = true
    · rw [if_pos hc]
      simp [STATUS_COMPLETED]
    · rw [if_neg hc]
      exact hc
  rw [completeTask_fst_eq, h]
  rfl

lemma deleteTask_fst_iff (st : DBState) (i : Nat) :
    (deleteTask st i).1 = true ↔ ∃ r ∈ st.rows, r.id = i := by
  simp [deleteTask, List.countP_pos_iff]

lemma deleteTask_rows (st : DBState) (i : Nat) :
    (deleteTask st i).2.rows = st.rows.filter (fun r => r.id != i) := rfl

lemma deleteTask_twice (st : DBState) (i : Nat) :
    (deleteTask (deleteTask st i).2 i).1 = false := by
  have h : ((deleteTask st i).2.rows.countP (fun r => r.id == i)) = 0 := by
    rw [deleteTask_rows, List.countP_eq_zero]
    intro r hr
    have := (List.mem_filter.mp hr).2
    simpa using this
  simp [deleteTask, h]

lemma unique_of_pairwise_ne {l : List Row}
    (h : l.Pairwise (fun a b => a.id ≠ b.id)) :
    ∀ r1 ∈ l, ∀ r2 ∈ l, r1.id = r2.id → r1 = r2 := by
  induction l with
  | nil => simp
  | cons a l ih =>
    rcases List.pairwise_cons.mp h with ⟨ha, h2⟩
    intro r1 h1 r2 hr2 he
    rcases List.mem_cons.mp h1 with rfl | h1m
    · rcases List.mem_cons.mp hr2 with rfl | hr2m
      · rfl
      · exact absurd he (ha r2 hr2m)
    · rcases List.mem_cons.mp hr2 with rfl | hr2m
      · exact absurd he.symm (ha r1 h1m)
      · exact ih h2 r1 h1m r2 hr2m he

/-! ### Claims -/

/-- C1: `complete(id)` returns true iff a row with that id exists and its
status is Pending; it returns false both when no such row exists and when the
row is already Completed (the result is a plain boolean — the embedding of
`complete_task` has no error outcome for "not found"), and the second of two
consecutive `complete(id)` calls always returns false, so on an existing
Pending task the two calls return true then false. -/
theorem claim_C1 (st : DBState) (hwf : WF st) (i : Nat) (now now2 : String) :
    ((completeTask st i now).1 = true ↔
      ∃ r ∈ st.rows, r.id = i ∧ r.status = STATUS_PENDING)
    ∧ (completeTask (completeTask st i now).2 i now2).1 = false := by
  constructor
  · rw [completeTask_fst_iff]
    constructor
    · rintro ⟨r, hr, hid, hst⟩
      rcases hwf.1 r hr with hp | hcpl
      · exact ⟨r, hr, hid, hp⟩
      · exact absurd hcpl hst
    · rintro ⟨r, hr, hid, hp⟩
      refine ⟨r, hr, hid, ?_⟩
      rw [hp]
      decide
  · exact completeTask_twice st i now now2

/-- C1 witness: on a one-row database whose only task (id 1) is Pending,
completing id 1 returns true, and completing it again returns false. -/
theorem claim_C1_witness :
    ((completeTask exSt1 1 "t1").1 = true ↔
      ∃ r ∈ exSt1.rows, r.id = 1 ∧ r.status = STATUS_PENDING)
    ∧ (completeTask (completeTask exSt1 1 "t1").2 1 "t2").1 = false :=
  claim_C1 exSt1 (by decide) 1 "t1" "t2"

/-- C2 counterexample: on empty input `add` raises the message
"Task content cannot be empty.", which is not the message
"content cannot be empty" stated by the claim. -/
theorem claim_C2_cex :
    addTask DBState.init "" "t0" = Except.error "Task content cannot be empty."
    ∧ "Task content cannot be empty." ≠ "content cannot be empty" := by
  exact ⟨rfl, by decide⟩

/-- C2 (amended): `add(s)` fails — with message "Task content cannot be
empty." — iff `s` is empty or whitespace-only after trimming; the check
precedes any I/O (the error is produced without consulting the state, and no
row is created).  Otherwise `add(s)` appends exactly one Pending row whose
content is `s` trimmed and returns the actually assigned AUTOINCREMENT
primary key. -/
theorem claim_C2 (st : DBState) (s now : String) :
    (pyStrip s = "" → addTask st s now = Except.error "Task content cannot be empty.")
    ∧ (pyStrip s ≠ "" →
        addTask st s now =
          Except.ok (st.nextId,
            ⟨st.rows ++ [⟨st.nextId, pyStrip s, STATUS_PENDING, now, none⟩],
             st.nextId + 1⟩)) := by
  constructor
  · intro h
    unfold addTask
    rw [if_pos (Or.inr h)]
  · intro h
    have hne : ¬(s = "" ∨ pyStrip s = "") := by
      rintro (rfl | h2)
      · exact h rfl
      · exact h h2
    unfold addTask
    rw [if_neg hne]

/-- C2 witness: a whitespace-only string is rejected with the exact message,
and " hi " is stored trimmed as a Pending row with the assigned id 1. -/
theorem claim_C2_witness :
    addTask DBState.init " " "t0" = Except.error "Task content cannot be empty."
    ∧ addTask DBState.init " hi " "t0" =
        Except.ok (DBState.init.nextId,
          ⟨DBState.init.rows ++
            [⟨DBState.init.nextId, pyStrip " hi ", STATUS_PENDING, "t0", none⟩],
           DBState.init.nextId + 1⟩) :=
  ⟨(claim_C2 DBState.init " " "t0").1 (by decide),
   (claim_C2 DBState.init " hi " "t0").2 (by decide)⟩

/-- C8: `delete(id)` returns true iff a row with that id existed (and was
removed); on a missing id it returns false — the embedding of `delete_task`
has no error outcome for "not found" — and the second of two consecutive
deletes of the same id always returns false, so deleting an existing id twice
returns true then false. -/
theorem claim_C8 (st : DBState) (i : Nat) :
    ((deleteTask st i).1 = true ↔ ∃ r ∈ st.rows, r.id = i)
    ∧ (deleteTask (deleteTask st i).2 i).1 = false :=
  ⟨deleteTask_fst_iff st i, deleteTask_twice st i⟩

/-- C10: an empty-string `status` or `query` argument is falsy in Python, so
`list_tasks` applies no such filter and performs no validation on it: the
call is identical to passing `None`, and with both filters empty it always
succeeds. -/
theorem claim_C10 (st : DBState) (limit : Option Int) (q v : Option String) :
    listTasks st limit (some "") q = listTasks st limit none q
    ∧ listTasks st limit v (some "") = listTasks st limit v none
    ∧ ∃ ts, listTasks st limit (some "") (some "") = Except.ok ts :=
  ⟨rfl, rfl, _, rfl⟩

/-- C5: with a positive limit, `list` returns exactly the first `limit` rows
of the unlimited (filtered and ordered) result; with a zero limit no `LIMIT`
clause is emitted (Python falsiness), and with a negative limit SQLite
applies no bound — in both non-positive cases the call coincides with the
no-limit call. -/
theorem claim_C5 (st : DBState) (l : Int) (status query : Option String) :
    (0 < l → listTasks st (some l) status query =
        (listTasks st none status query).map (fun ts => ts.take l.toNat))
    ∧ (l ≤ 0 → listTasks st (some l) status query = listTasks st none status query) := by
  constructor
  · intro hl
    have hA : applyLimit (some l) (sortByIdDesc (filteredRows st status query)) =
        (sortByIdDesc (filteredRows st status query)).take l.toNat := by
      unfold applyLimit
      have h1 : truthyInt (some l) = true := by
        simp [truthyInt]
        omega
      rw [if_pos h1, if_pos (by simpa using hl.le)]
      rfl
    by_cases hv : (truthyStr status && !statusFilterValid (status.getD "")) = true
    · unfold listTasks
      rw [if_pos hv, if_pos hv]
      rfl
    · unfold listTasks
      rw [if_neg hv, if_neg hv, hA, List.map_take]
      rfl
  · intro hl
    have hA : applyLimit (some l) (sortByIdDesc (filteredRows st status query)) =
        applyLimit none (sortByIdDesc (filteredRows st status query)) := by
      by_cases h0 : l = 0
      · subst h0
        unfold applyLimit
        simp [truthyInt]
      · unfold applyLimit
        have h1 : truthyInt (some l) = true := by
          simp [truthyInt]
          omega
        rw [if_pos h1, if_neg (by simp; omega)]
        simp [truthyInt]
    unfold listTasks
    rw [hA]

/-- C5 witness: on the three-task database, `limit = 2` returns the first two
rows of the unlimited result, and `limit = -1` returns the unlimited result. -/
theorem claim_C5_witness :
    listTasks exSt3 (some 2) none none =
      (listTasks exSt3 none none none).map (fun ts => ts.take (2 : Int).toNat)
    ∧ listTasks exSt3 (some (-1)) none none = listTasks exSt3 none none none :=
  ⟨(claim_C5 exSt3 2 none none).1 (by decide),
   (claim_C5 exSt3 (-1) none none).2 (by decide)⟩

/-- C7: every successful `list` result is strictly descending by id
(`ORDER BY id DESC` over pairwise-distinct primary keys, for every filter
combination), and the spec's example holds: adding "A" then "B" then "C" to a
fresh store and listing returns them as ["C","B","A"]. -/
theorem claim_C7 :
    (∀ st, WF st → ∀ limit status query ts,
        listTasks st limit status query = Except.ok ts →
        ts.Pairwise (fun a b => b.id < a.id))
    ∧ ((addTask DBState.init "A" "t1").bind (fun p1 =>
        (addTask p1.2 "B" "t2").bind (fun p2 =>
          (addTask p2.2 "C" "t3").bind (fun p3 =>
            listTasks p3.2 none none none))) =
        Except.ok [⟨3, "C", STATUS_PENDING, "t3"⟩, ⟨2, "B", STATUS_PENDING, "t2"⟩,
          ⟨1, "A", STATUS_PENDING, "t1"⟩]) := by
  constructor
  · intro st hwf limit status query ts hts
    unfold listTasks at hts
    by_cases hv : (truthyStr status && !statusFilterValid (status.getD "")) = true
    · rw [if_pos hv] at hts
      exact absurd hts (by simp)
    · rw [if_neg hv] at hts
      injection hts with hts
      subst hts
      have h1 : (filteredRows st status query).Pairwise (fun a b => a.id ≠ b.id) :=
        hwf.2.2.sublist (filteredRows_sublist st status query)
      have h4 := pairwise_idlt_of_sorted_ne
        (sortByIdDesc_sorted (filteredRows st status query))
        (sortByIdDesc_pairwise_ne h1)
      have h5 : (applyLimit limit (sortByIdDesc (filteredRows st status query))).Pairwise
          (fun a b => b.id < a.id) := h4.sublist (applyLimit_sublist _ _)
      rw [List.pairwise_map]
      exact h5
  · rfl

/-- C7 witness: the concrete descending result ["C","B","A"] produced on the
three-task database is strictly descending by id. -/
theorem claim_C7_witness :
    ([⟨3, "C", STATUS_PENDING, "t3"⟩, ⟨2, "B", STATUS_PENDING, "t2"⟩,
      ⟨1, "A", STATUS_PENDING, "t1"⟩] : List Task).Pairwise (fun a b => b.id < a.id) :=
  claim_C7.1 exSt3 (by decide) none none none
    [⟨3, "C", STATUS_PENDING, "t3"⟩, ⟨2, "B", STATUS_PENDING, "t2"⟩,
      ⟨1, "A", STATUS_PENDING, "t1"⟩]
    (show listTasks exSt3 none none none =
        Except.ok [⟨3, "C", STATUS_PENDING, "t3"⟩, ⟨2, "B", STATUS_PENDING, "t2"⟩,
          ⟨1, "A", STATUS_PENDING, "t1"⟩] from rfl)

/-- C9 (frame): `complete` maps the table pointwise, preserving `id`, content
and `created_at` of every row and leaving every row other than a targeted
non-Completed row literally unchanged; `delete` keeps each surviving row a
row of the old table; `add` only appends (existing rows untouched); and with
pairwise-distinct primary keys at most one row can carry the targeted id. -/
theorem claim_C9 (st : DBState) (hwf : WF st) (i : Nat) (now s n2 : String) :
    List.Forall₂ (fun r r2 =>
        r2.id = r.id ∧ r2.task = r.task ∧ r2.created_at = r.created_at ∧
        (¬(r.id = i ∧ r.status ≠ STATUS_COMPLETED) → r2 = r))
      st.rows (completeTask st i now).2.rows
    ∧ (∀ r ∈ (deleteTask st i).2.rows, r ∈ st.rows)
    ∧ (∀ p, addTask st s n2 = Except.ok p →
        p.2.rows = st.rows ++ [⟨st.nextId, pyStrip s, STATUS_PENDING, n2, none⟩])
    ∧ (∀ r1 ∈ st.rows, ∀ r2 ∈ st.rows, r1.id = i → r2.id = i → r1 = r2) := by
  refine ⟨?_, ?_, ?_, ?_⟩
  · rw [completeTask_rows, List.forall₂_map_right_iff, List.forall₂_same]
    intro r _
    unfold completeUpd
    by_cases hc : (r.id == i && r.status != STATUS_COMPLETED) = true
    · rw [if_pos hc]
      refine ⟨rfl, rfl, rfl, fun hn => absurd ?_ hn⟩
      simpa using hc
    · rw [if_neg hc]
      exact ⟨rfl, rfl, rfl, fun _ => rfl⟩
  · intro r hr
    rw [deleteTask_rows] at hr
    exact (List.mem_filter.mp hr).1
  · intro p hp
    by_cases he : (s = "" ∨ pyStrip s = "")
    · unfold addTask at hp
      rw [if_pos he] at hp
      exact absurd hp (by simp)
    · unfold addTask at hp
      rw [if_neg he] at hp
      injection hp with hp
      rw [← hp]
  · intro r1 h1 r2 h2 e1 e2
    exact unique_of_pairwise_ne hwf.2.2 r1 h1 r2 h2 (e1.trans e2.symm)

/-- C9 witness: on the one-row database, completing id 1 relates old and new
tables pointwise with id, content and creation time preserved. -/
theorem claim_C9_witness :
    List.Forall₂ (fun r r2 =>
        r2.id = r.id ∧ r2.task = r.task ∧ r2.created_at = r.created_at ∧
        (¬(r.id = 1 ∧ r.status ≠ STATUS_COMPLETED) → r2 = r))
      exSt1.rows (completeTask exSt1 1 "t1").2.rows :=
  (claim_C9 exSt1 (by decide) 1 "t1" "x" "t2").1

/-- C3 counterexample: the query is passed to SQLite `LIKE` unescaped, so `_`
acts as a single-character wildcard: `list(query="a_c")` returns the task
"abc" even though "abc" does not contain "a_c" as a substring under
case-insensitive comparison. -/
theorem claim_C3_cex :
    listTasks exStAbc none none (some "a_c") =
      Except.ok [⟨1, "abc", STATUS_PENDING, "t0"⟩]
    ∧ isSubCI "a_c".data "abc".data = false :=
  ⟨rfl, rfl⟩

/-- C3 (amended): for every non-empty query containing no `LIKE` wildcard
character (`%` or `_`), `list(query=q)` returns exactly the stored tasks
whose content contains `q` as a substring under ASCII-case-insensitive
comparison, in descending id order; queries containing `%` or `_` instead
have those characters act as `LIKE` wildcards. -/
theorem claim_C3 (st : DBState) (q : String) (hq : q ≠ "")
    (hpl : ∀ c ∈ q.data, c ≠ '%' ∧ c ≠ '_') :
    listTasks st none none (some q) =
      Except.ok ((sortByIdDesc (st.rows.filter
        (fun r => isSubCI q.data r.task.data))).map toTask) := by
  have htq : truthyStr (some q) = true := by simp [truthyStr, hq]
  have hfr : filteredRows st none (some q) =
      st.rows.filter (fun r => likeMatch (queryPattern q) r.task.data) := by
    unfold filteredRows
    rw [if_pos htq]
    rfl
  have hflt : st.rows.filter (fun r => likeMatch (queryPattern q) r.task.data) =
      st.rows.filter (fun r => isSubCI q.data r.task.data) :=
    List.filter_congr (fun r _ => likeMatch_queryPattern q hpl r.task.data)
  rw [listTasks_of_falsy_status st none none (some q) rfl, hfr, hflt]
  rfl

/-- C3 witness: the spec's example — `query="buy"` against "Buy milk",
"I will buy bread" and "sell bread" returns exactly the case-insensitive
substring matches. -/
theorem claim_C3_witness :
    listTasks exStBuy none none (some "buy") =
      Except.ok ((sortByIdDesc (exStBuy.rows.filter
        (fun r => isSubCI "buy".data r.task.data))).map toTask) :=
  claim_C3 exStBuy "buy" (by decide) (by decide)

/-- C4 counterexample: the `SELECT` of `list_tasks` reads only
`id, task, status, created_at`; `updated_at` is not among the returned
columns, so `list()` does not include any `updated_at` value at all. -/
theorem claim_C4_cex :
    "updated_at" ∉ listSelectColumns
    ∧ listSelectSql =
        "SELECT " ++ String.intercalate ", " listSelectColumns ++ " FROM todos" := by
  exact ⟨by decide, rfl⟩

/-- C4 (amended): completing a fresh Pending task returns true; the stored
row then has status Completed and non-null `updated_at` equal to the
completion time; a subsequent `list()` shows that task with status Completed
(but carries no `updated_at`, which the SELECT omits); and rows produced by
`add` start with a null `updated_at`, which only completion sets. -/
theorem claim_C4 (st : DBState) (i : Nat) (now : String)
    (hp : ∃ r ∈ st.rows, r.id = i ∧ r.status = STATUS_PENDING) :
    (completeTask st i now).1 = true
    ∧ (∃ r2 ∈ (completeTask st i now).2.rows,
        r2.id = i ∧ r2.status = STATUS_COMPLETED ∧ r2.updated_at = some now)
    ∧ (∃ ts, listTasks (completeTask st i now).2 none none none = Except.ok ts
        ∧ ∃ t ∈ ts, t.id = i ∧ t.status = STATUS_COMPLETED)
    ∧ (∀ st2 c n2 p, addTask st2 c n2 = Except.ok p →
        ∀ r3 ∈ p.2.rows, r3 ∈ st2.rows ∨ r3.updated_at = none) := by
  obtain ⟨r, hr, hid, hst⟩ := hp
  have hco : r.status ≠ STATUS_COMPLETED := by rw [hst]; decide
  have hc : (r.id == i && r.status != STATUS_COMPLETED) = true := by
    simp [hid, hco]
  have hupd : completeUpd i now r =
      { r with status := STATUS_COMPLETED, updated_at := some now } := by
    unfold completeUpd
    rw [if_pos hc]
  refine ⟨(completeTask_fst_iff st i now).mpr ⟨r, hr, hid, hco⟩, ?_, ?_, ?_⟩
  · refine ⟨completeUpd i now r, ?_, ?_, ?_, ?_⟩
    · rw [completeTask_rows]
      exact List.mem_map_of_mem _ hr
    · rw [hupd]
      exact hid
    · rw [hupd]
    · rw [hupd]
  · refine ⟨_, listTasks_of_falsy_status _ none none none rfl, ?_⟩
    refine ⟨toTask (completeUpd i now r), ?_, ?_, ?_⟩
    · apply List.mem_map_of_mem
      show completeUpd i now r ∈ sortByIdDesc (completeTask st i now).2.rows
      rw [completeTask_rows]
      exact mem_sortByIdDesc.mpr (List.mem_map_of_mem _ hr)
    · rw [hupd]
      exact hid
    · rw [hupd]
      rfl
  · intro st2 c n2 p hp2 r3 hr3
    by_cases he : (c = "" ∨ pyStrip c = "")
    · unfold addTask at hp2
      rw [if_pos he] at hp2
      exact absurd hp2 (by simp)
    · unfold addTask at hp2
      rw [if_neg he] at hp2
      injection hp2 with hp2
      rw [← hp2] at hr3
      rcases List.mem_append.mp hr3 with h | h
      · exact Or.inl h
      · right
        rw [List.mem_singleton.mp h]

/-- C4 witness: completing the fresh Pending task of id 1 returns true and
leaves a stored row with status Completed and `updated_at` set. -/
theorem claim_C4_witness :
    (completeTask exSt1 1 "t1").1 = true
    ∧ ∃ r2 ∈ (completeTask exSt1 1 "t1").2.rows,
        r2.id = 1 ∧ r2.status = STATUS_COMPLETED ∧ r2.updated_at = some "t1" := by
  have h := claim_C4 exSt1 1 "t1" (by decide)
  exact ⟨h.1, h.2.1⟩

/-- C6 counterexample: the empty string is not a valid status, yet
`list(status="")` raises nothing — the Python truthiness test on the argument
skips validation and filtering entirely, so the call succeeds. -/
theorem claim_C6_cex :
    listTasks DBState.init none (some "") none = Except.ok []
    ∧ ¬("" = STATUS_PENDING ∨ "" = STATUS_COMPLETED) :=
  ⟨rfl, by decide⟩

/-- C6 (amended): for every non-empty status filter value, `list` restricts
results to exactly the rows with that status when it is "Pending" or
"Completed", and otherwise fails — independently of the stored state, hence
before any query — with a message that contains the invalid value; an
empty-string filter value is instead treated as absent. -/
theorem claim_C6 (st : DBState) (v : String) (hv : v ≠ "") :
    ((v = STATUS_PENDING ∨ v = STATUS_COMPLETED) →
      ∃ ts, listTasks st none (some v) none = Except.ok ts
        ∧ ∀ t, t ∈ ts ↔ ∃ r ∈ st.rows, r.status = v ∧ toTask r = t)
    ∧ (¬(v = STATUS_PENDING ∨ v = STATUS_COMPLETED) →
      (∀ st2 : DBState, listTasks st2 none (some v) none =
          Except.error ("Invalid status filter: " ++ v))
      ∧ ∃ pre, ("Invalid status filter: " ++ v) = pre ++ v) := by
  have htr : truthyStr (some v) = true := by simp [truthyStr, hv]
  constructor
  · intro hval
    have hval2 : statusFilterValid v = true := by
      rcases hval with rfl | rfl <;> rfl
    have hcond : ¬((truthyStr (some v) && !statusFilterValid ((some v).getD "")) = true) := by
      simp [htr, hval2]
    have hfr : filteredRows st (some v) none =
        st.rows.filter (fun r => r.status == v) := by
      unfold filteredRows
      rw [if_pos htr]
      rfl
    refine ⟨(applyLimit none (sortByIdDesc (filteredRows st (some v) none))).map toTask,
      ?_, ?_⟩
    · unfold listTasks
      rw [if_neg hcond]
    · intro t
      constructor
      · intro ht
        rcases List.mem_map.mp ht with ⟨r, hr1, rfl⟩
        have hr1b : r ∈ sortByIdDesc (filteredRows st (some v) none) := hr1
        have hr2 := mem_sortByIdDesc.mp hr1b
        rw [hfr] at hr2
        rcases List.mem_filter.mp hr2 with ⟨hrm, hreq⟩
        exact ⟨r, hrm, by simpa using hreq, rfl⟩
      · rintro ⟨r, hrm, hstat, rfl⟩
        apply List.mem_map_of_mem
        show r ∈ sortByIdDesc (filteredRows st (some v) none)
        apply mem_sortByIdDesc.mpr
        rw [hfr]
        exact List.mem_filter.mpr ⟨hrm, by simp [hstat]⟩
  · intro hninv
    have hnv : statusFilterValid v = false := by
      have h1 : ¬(v = STATUS_PENDING) := fun h => hninv (Or.inl h)
      have h2 : ¬(v = STATUS_COMPLETED) := fun h => hninv (Or.inr h)
      simp [statusFilterValid, h1, h2]
    refine ⟨fun st2 => ?_, ⟨"Invalid status filter: ", rfl⟩⟩
    unfold listTasks
    rw [if_pos (by simp [htr, hnv])]
    rfl

/-- C6 witness: `list(status="bogus")` fails with the message containing the
invalid value, on the empty database. -/
theorem claim_C6_witness :
    listTasks DBState.init none (some "bogus") none =
      Except.error ("Invalid status filter: " ++ "bogus") :=
  ((claim_C6 DBState.init "bogus" (by decide)).2 (by decide)).1 DBState.init

end TodoStore
